import Mathlib

set_option maxHeartbeats 1000000

namespace AgenticVision

/-! Shallow embedding of the stream accumulation and part-classification core of the
Gemini agentic-vision chat client (src/components/ChatMessageItem.tsx: `renderPart`
and the `ChatInterface.handleSend` accumulation loop, and src/services/gemini.ts:
`sendMessageStream`). Optional JavaScript object fields become `Option`; JavaScript
truthiness of strings (non-empty) and booleans is made explicit. -/

structure ExecutableCode where
  language : String
  code : String
deriving DecidableEq

structure CodeExecutionResult where
  outcome : String
  output : String
deriving DecidableEq

structure InlineData where
  mimeType : String
  data : String
deriving DecidableEq

/-- The `thought` field of a part may be a boolean flag or the thought text itself. -/
inductive ThoughtVal where
  | bool : Bool → ThoughtVal
  | str : String → ThoughtVal
deriving DecidableEq

/-- One raw streamed part (`Part` of the provider SDK), with the five fields the code reads. -/
structure Fragment where
  text : Option String := none
  thought : Option ThoughtVal := none
  executableCode : Option ExecutableCode := none
  codeExecutionResult : Option CodeExecutionResult := none
  inlineData : Option InlineData := none
deriving DecidableEq

/-- JavaScript truthiness of an optional string: present and non-empty. -/
def truthyText : Option String → Bool
  | some s => !s.isEmpty
  | none => false

/-- JavaScript truthiness of an optional `thought` value: `true`, or a non-empty string. -/
def truthyThought : Option ThoughtVal → Bool
  | some (.bool b) => b
  | some (.str s) => !s.isEmpty
  | none => false

/-- `part.thought === true || typeof part.thought === 'string'` (renderPart line 92). -/
def thoughtFlag : Option ThoughtVal → Bool
  | some (.bool b) => b
  | some (.str _) => true
  | none => false

def textTruthy (f : Fragment) : Bool := truthyText f.text

def thoughtTruthy (f : Fragment) : Bool := truthyThought f.thought

def isThought (f : Fragment) : Bool := thoughtFlag f.thought

/-- The kinds a rendered part can take, plus `Unknown` for parts renderPart drops. -/
inductive Kind where
  | Thought
  | ExecutableCode
  | CodeExecutionResult
  | Text
  | InlineImage
  | Unknown
deriving DecidableEq

/-- Branch order of `ChatMessageItem.renderPart`: thought check first, then
`part.executableCode`, `part.codeExecutionResult`, `part.text` (truthy, so an empty
string falls through), `part.inlineData`, otherwise `null` is rendered. -/
def classify (f : Fragment) : Kind :=
  if isThought f then .Thought
  else if f.executableCode.isSome then .ExecutableCode
  else if f.codeExecutionResult.isSome then .CodeExecutionResult
  else if textTruthy f then .Text
  else if f.inlineData.isSome then .InlineImage
  else .Unknown

/-- JavaScript `String.prototype.trim`: drop leading and trailing whitespace. -/
def jsTrim (s : String) : String :=
  ⟨((s.data.dropWhile Char.isWhitespace).reverse.dropWhile Char.isWhitespace).reverse⟩

/-- `(typeof part.thought === 'string' ? part.thought : (part.text || "")).trim()`
(renderPart line 97). -/
def thoughtContent (f : Fragment) : String :=
  jsTrim (match f.thought with
          | some (.str s) => s
          | _ => f.text.getD "")

/-- The merge test of the accumulation loop (`ChatInterface.handleSend` lines 420-424):
`(incoming.text && lastPart.text && !incoming.thought && !lastPart.thought &&
!incoming.executableCode && !lastPart.executableCode) || (incoming.thought && lastPart.thought)`. -/
def isSameType (lastPart incoming : Fragment) : Bool :=
  (textTruthy incoming && textTruthy lastPart
    && !thoughtTruthy incoming && !thoughtTruthy lastPart
    && !incoming.executableCode.isSome && !lastPart.executableCode.isSome)
  || (thoughtTruthy incoming && thoughtTruthy lastPart)

/-- The merge action: `if (incoming.text) { lastPart.text = (lastPart.text || "") + incoming.text }`.
Only the `text` field is ever concatenated; all other fields of the last part are kept. -/
def mergeInto (lastPart incoming : Fragment) : Fragment :=
  if textTruthy incoming then
    { lastPart with text := some (lastPart.text.getD "" ++ incoming.text.getD "") }
  else lastPart

/-- One iteration of the `for (const incoming of incomingParts)` loop: merge into the
last accumulated part when `isSameType` holds, else push a copy of the incoming part. -/
def accumulateOne (acc : List Fragment) (incoming : Fragment) : List Fragment :=
  match acc.getLast? with
  | none => acc ++ [incoming]
  | some lastPart =>
    if isSameType lastPart incoming then acc.dropLast ++ [mergeInto lastPart incoming]
    else acc ++ [incoming]

/-- Folding an ordered fragment sequence into the accumulated part list. -/
def accumulate (acc : List Fragment) (fs : List Fragment) : List Fragment :=
  fs.foldl accumulateOne acc

/-- One conversation message (`ChatMessage` in src/types.ts). -/
structure ChatMessage where
  id : String
  role : String
  parts : List Fragment
  timestamp : Nat
deriving DecidableEq

/-- The `setMessages` updater of `ChatInterface.handleSend` (lines 435-449): build the
updated model message (timestamp kept when the last message already has the model id,
fresh otherwise), then replace the last message if its id matches, else append. -/
def applyTurn (prev : List ChatMessage) (modelMessageId : String)
    (accumulatedParts : List Fragment) (now : Nat) : List ChatMessage :=
  match prev.getLast? with
  | some last =>
    if last.id = modelMessageId then
      prev.dropLast ++ [{ id := modelMessageId, role := "model", parts := accumulatedParts,
                          timestamp := last.timestamp }]
    else
      prev ++ [{ id := modelMessageId, role := "model", parts := accumulatedParts,
                 timestamp := now }]
  | none =>
    prev ++ [{ id := modelMessageId, role := "model", parts := accumulatedParts,
               timestamp := now }]

structure GenContent where
  parts : Option (List Fragment)
deriving DecidableEq

structure Candidate where
  content : Option GenContent
deriving DecidableEq

/-- One streamed chunk; only the `candidates` optional chain is read by the loop. -/
structure Chunk where
  candidates : Option (List Candidate)
deriving DecidableEq

/-- `chunk.candidates?.[0]?.content?.parts` with JavaScript optional chaining. -/
def incomingPartsOf (c : Chunk) : Option (List Fragment) :=
  match c.candidates with
  | some (cand :: _) =>
    match cand.content with
    | some ct => ct.parts
    | none => none
  | _ => none

/-- Body of `for await (const chunk of stream)`: the `if (incomingParts)` guard skips a
chunk without parts; otherwise the accumulated parts grow and the conversation is
updated through the `setMessages` rule. -/
def processChunk (modelMessageId : String) (now : Nat)
    (st : List Fragment × List ChatMessage) (chunk : Chunk) :
    List Fragment × List ChatMessage :=
  match incomingPartsOf chunk with
  | some incomingParts =>
    let acc := accumulate st.1 incomingParts
    (acc, applyTurn st.2 modelMessageId acc now)
  | none => st

/-- A turn's stream: the chunks delivered, and whether the stream raised afterwards. -/
structure TurnStream where
  chunks : List Chunk
  errors : Bool
deriving DecidableEq

/-- The single text part of the synthetic error message built in the catch block. -/
def errorNotice : Fragment := { text := some "I encountered an error. Please try again." }

/-- The catch block of `handleSend` (lines 453-461): a fresh message with id
`error-` + Date.now(), role model, one apology text part, appended to the conversation. -/
def errorMessage (now : Nat) : ChatMessage :=
  { id := "error-" ++ toString now, role := "model", parts := [errorNotice], timestamp := now }

/-- The model half of a turn: consume the delivered chunks in order, then, if the stream
raised, append the synthetic error message (the catch block). -/
def runTurn (prev : List ChatMessage) (modelMessageId : String)
    (stream : TurnStream) (now : Nat) : List ChatMessage :=
  let final := stream.chunks.foldl (processChunk modelMessageId now) ([], prev)
  if stream.errors then final.2 ++ [errorMessage now] else final.2

/-- Characters matched by `.` in a JavaScript regex without the `s` flag
(anything except the four line terminators). -/
def isDotChar (c : Char) : Bool :=
  c ≠ '\n' && c ≠ '\r' && c ≠ '\u2028' && c ≠ '\u2029'

def sepChars : List Char := ";base64,".data

/-- Every way to split `l` as `A ++ ";base64," ++ B`, returned as pairs `(A, B)`
with the leftmost split first. -/
def splitsAux : List Char → List (List Char × List Char)
  | [] => []
  | c :: cs =>
    let tailSplits := (splitsAux cs).map (fun p => (c :: p.1, p.2))
    if sepChars.isPrefixOf (c :: cs) then ([], (c :: cs).drop sepChars.length) :: tailSplits
    else tailSplits

/-- The split chosen by the backtracking regex `(.+);base64,(.+)`: among the splits with
both groups non-empty, the first group is greedy, so the longest first group wins. -/
def bestSplit (l : List Char) : Option (List Char × List Char) :=
  ((splitsAux l).filter (fun p => !p.1.isEmpty && !p.2.isEmpty)).foldl
    (fun acc p =>
      match acc with
      | none => some p
      | some q => if q.1.length < p.1.length then some p else some q)
    none

/-- `image.match(/^data:(.+);base64,(.+)$/)`, returning groups 1 and 2 on success.
Both groups consist of `.`-matchable characters and the separator contains none, so the
whole tail after `data:` must be free of line terminators; the match is anchored. -/
def dataUrlMatch (image : String) : Option (String × String) :=
  if ("data:".data).isPrefixOf image.data && (image.data.drop 5).all isDotChar then
    match bestSplit (image.data.drop 5) with
    | some (a, b) => some (⟨a⟩, ⟨b⟩)
    | none => none
  else none

/-- `sendMessageStream` (src/services/gemini.ts lines 26-45): the text part is always
sent; the image part is added only when the data-URL regex matches, and an
`application/octet-stream` mime type is normalized to `image/jpeg`. -/
def buildParts (message : String) (image : Option String) : List Fragment :=
  let parts : List Fragment := [{ text := some message }]
  match image with
  | some img =>
    match dataUrlMatch img with
    | some (m, d) =>
      let mime := if m = "application/octet-stream" then "image/jpeg" else m
      parts ++ [{ inlineData := some (InlineData.mk mime d) }]
    | none => parts
  | none => parts

/-- Classifier written from the spec's words (spec §4.1 rule order), for comparison with
the code's `classify`: rule 4 counts a present but empty `text` as Text, and rule 1 makes
an empty-string `thought` fall through (not truthy, not a non-empty string). -/
def specClassify (f : Fragment) : Kind :=
  if thoughtTruthy f then .Thought
  else if f.executableCode.isSome then .ExecutableCode
  else if f.codeExecutionResult.isSome then .CodeExecutionResult
  else if f.text.isSome then .Text
  else if f.inlineData.isSome then .InlineImage
  else .Unknown

/-- How many of the five recognized fields are populated. -/
def populatedCount (f : Fragment) : Nat :=
  (if f.text.isSome then 1 else 0) + (if f.thought.isSome then 1 else 0)
    + (if f.executableCode.isSome then 1 else 0)
    + (if f.codeExecutionResult.isSome then 1 else 0)
    + (if f.inlineData.isSome then 1 else 0)

/-- The kind named by a populated field (unambiguous when exactly one is populated). -/
def populatedKind (f : Fragment) : Kind :=
  if f.thought.isSome then .Thought
  else if f.executableCode.isSome then .ExecutableCode
  else if f.codeExecutionResult.isSome then .CodeExecutionResult
  else if f.text.isSome then .Text
  else if f.inlineData.isSome then .InlineImage
  else .Unknown

/-- Fragments whose string-valued `text` and `thought` fields, when present, are
non-empty (hence JavaScript-truthy). -/
def GoodFrag (f : Fragment) : Bool :=
  (match f.text with
   | some s => !s.isEmpty
   | none => true)
  && (match f.thought with
      | some (.str s) => !s.isEmpty
      | _ => true)

/-- Two blocks share a mergeable kind: both Text or both Thought. -/
def sameMergeableKind (a b : Fragment) : Bool :=
  (classify a == Kind.Text && classify b == Kind.Text)
  || (classify a == Kind.Thought && classify b == Kind.Thought)

/-- No two consecutive accumulated blocks share a mergeable kind. -/
def NoMergeAdj (l : List Fragment) : Prop :=
  List.Chain' (fun a b => sameMergeableKind a b = false) l

/-- The end-to-end fragment sequence of the spec's scenario (spec §8). -/
def c1Input : List Fragment :=
  [{ thought := some (.str "**Plan**: crop") },
   { thought := some (.str " the image") },
   { executableCode := some ⟨"python", "crop(img)"⟩ },
   { codeExecutionResult := some ⟨"OK", "done"⟩ },
   { text := some "Here is the result." }]

/-- A chunk whose first candidate carries exactly the given parts. -/
def mkChunk (fs : List Fragment) : Chunk :=
  { candidates := some [{ content := some { parts := some fs } }] }

/-! ## Helper lemmas -/

theorem truthy_flag {o : Option ThoughtVal} (h : truthyThought o = true) :
    thoughtFlag o = true := by
  cases o with
  | none => simp [truthyThought] at h
  | some v =>
    cases v with
    | bool b => simpa [truthyThought, thoughtFlag] using h
    | str s => simp [thoughtFlag]

theorem thoughtTruthy_eq_false {f : Fragment} (h : isThought f = false) :
    thoughtTruthy f = false := by
  cases hx : thoughtTruthy f
  · rfl
  · rw [thoughtTruthy] at hx
    rw [isThought, truthy_flag hx] at h
    cases h

theorem not_isEmpty_iff {s : String} : (!s.isEmpty) = true ↔ s ≠ "" := by
  rw [Bool.not_eq_true']
  constructor
  · intro h he
    subst he
    exact absurd h (by decide)
  · intro h
    cases hx : s.isEmpty
    · rfl
    · exact absurd ((String.isEmpty_iff s).1 hx) h

theorem ne_empty_append {a b : String} (h : b ≠ "") : a ++ b ≠ "" := by
  intro he
  apply h
  have hd : (a ++ b).data = [] := by rw [he]
  rw [String.data_append] at hd
  exact String.ext (List.append_eq_nil.1 hd).2

theorem ne_empty_append_left {a b : String} (h : a ≠ "") : a ++ b ≠ "" := by
  intro he
  apply h
  have hd : (a ++ b).data = [] := by rw [he]
  rw [String.data_append] at hd
  exact String.ext (List.append_eq_nil.1 hd).1

theorem isEmpty_false_iff {s : String} : s.isEmpty = false ↔ s ≠ "" := by
  rw [← Bool.not_eq_true']
  exact not_isEmpty_iff

theorem textTruthy_iff {f : Fragment} : textTruthy f = true ↔ ∃ s, f.text = some s ∧ s ≠ "" := by
  rw [textTruthy]
  cases hx : f.text with
  | none => simp [truthyText]
  | some s => simp [truthyText, isEmpty_false_iff]

theorem model_ne_error (x y : String) : ("model-" ++ x) ≠ ("error-" ++ y) := by
  intro h
  have h2 : ("model-" ++ x).data = ("error-" ++ y).data := congrArg String.data h
  rw [String.data_append, String.data_append] at h2
  have hm : ("model-" : String).data = 'm' :: "odel-".data := rfl
  have he : ("error-" : String).data = 'e' :: "rror-".data := rfl
  rw [hm, he] at h2
  simp only [List.cons_append, List.cons.injEq] at h2
  exact absurd h2.1 (by decide)

theorem classify_thought_iff (f : Fragment) :
    classify f = Kind.Thought ↔ isThought f = true := by
  unfold classify
  split_ifs with h1 h2 h3 h4 h5 <;> simp_all

theorem classify_text_fields {f : Fragment} (h : classify f = Kind.Text) :
    textTruthy f = true ∧ isThought f = false ∧ f.executableCode.isSome = false := by
  unfold classify at h
  split_ifs at h with h1 h2 h3 h4 h5 <;> simp_all

theorem classify_thought_truthy {f : Fragment} (hg : GoodFrag f = true)
    (h : classify f = Kind.Thought) : thoughtTruthy f = true := by
  have hT : isThought f = true := (classify_thought_iff f).1 h
  rw [isThought] at hT
  rw [thoughtTruthy]
  unfold GoodFrag at hg
  cases hth : f.thought with
  | none => rw [hth] at hT; cases hT
  | some v =>
    cases v with
    | bool b =>
      rw [hth] at hT
      simpa [truthyThought, thoughtFlag] using hT
    | str s =>
      rw [hth] at hg
      simp only [Bool.and_eq_true] at hg
      simpa [truthyThought] using hg.2

theorem mergeInto_thought (l i : Fragment) : (mergeInto l i).thought = l.thought := by
  unfold mergeInto
  split <;> rfl

theorem classify_congr {f g : Fragment} (h1 : isThought f = isThought g)
    (h2 : f.executableCode.isSome = g.executableCode.isSome)
    (h3 : f.codeExecutionResult.isSome = g.codeExecutionResult.isSome)
    (h4 : textTruthy f = textTruthy g)
    (h5 : f.inlineData.isSome = g.inlineData.isSome) : classify f = classify g := by
  unfold classify
  rw [h1, h2, h3, h4, h5]

theorem classify_of_isThought {f : Fragment} (h : isThought f = true) :
    classify f = Kind.Thought := by
  unfold classify
  rw [h]
  simp

theorem mergeInto_classify {l i : Fragment} (h : isSameType l i = true) :
    classify (mergeInto l i) = classify l := by
  unfold mergeInto
  by_cases hti : textTruthy i = true
  · rw [if_pos hti]
    unfold isSameType at h
    simp only [Bool.or_eq_true, Bool.and_eq_true, Bool.not_eq_true'] at h
    rcases h with ⟨⟨⟨⟨⟨_, htl⟩, _⟩, _⟩, _⟩, _⟩ | ⟨_, hthl⟩
    · -- text-merge branch: last had truthy text, text stays truthy, nothing else changes
      obtain ⟨s, hs, hne⟩ := textTruthy_iff.1 htl
      refine classify_congr rfl rfl rfl ?_ rfl
      rw [htl]
      show truthyText (some (l.text.getD "" ++ i.text.getD "")) = true
      rw [hs]
      show (!(s ++ i.text.getD "").isEmpty) = true
      exact not_isEmpty_iff.2 (ne_empty_append_left hne)
    · -- thought-merge branch: both sides classify as Thought
      have hTl : isThought l = true := by
        rw [isThought]
        exact truthy_flag hthl
      have hTm : isThought { l with text := some (l.text.getD "" ++ i.text.getD "") } = true := by
        rw [isThought]
        exact truthy_flag hthl
      rw [classify_of_isThought hTm, classify_of_isThought hTl]
  · rw [if_neg hti]

theorem goodFrag_mergeInto {a f : Fragment} (ha : GoodFrag a = true) :
    GoodFrag (mergeInto a f) = true := by
  unfold mergeInto
  by_cases ht : textTruthy f = true
  · rw [if_pos ht]
    obtain ⟨s, hs, hne⟩ := textTruthy_iff.1 ht
    unfold GoodFrag at ha ⊢
    simp only [Bool.and_eq_true] at ha ⊢
    refine ⟨?_, ha.2⟩
    rw [hs]
    show (!(a.text.getD "" ++ s).isEmpty) = true
    exact not_isEmpty_iff.2 (ne_empty_append hne)
  · rw [if_neg ht]
    exact ha

theorem isSameType_of_same {l i : Fragment} (hl : GoodFrag l = true) (hi : GoodFrag i = true)
    (h : sameMergeableKind l i = true) : isSameType l i = true := by
  unfold sameMergeableKind at h
  simp only [Bool.or_eq_true, Bool.and_eq_true, beq_iff_eq] at h
  unfold isSameType
  rcases h with ⟨hlt, hit⟩ | ⟨hlth, hith⟩
  · obtain ⟨htl, hthl, hel⟩ := classify_text_fields hlt
    obtain ⟨hti, hthi, hei⟩ := classify_text_fields hit
    rw [htl, hti, thoughtTruthy_eq_false hthl, thoughtTruthy_eq_false hthi, hel, hei]
    decide
  · rw [classify_thought_truthy hl hlth, classify_thought_truthy hi hith]
    simp

theorem accumulateOne_invariant {acc : List Fragment} {f : Fragment}
    (hchain : NoMergeAdj acc) (hgood : ∀ p ∈ acc, GoodFrag p = true)
    (hf : GoodFrag f = true) :
    NoMergeAdj (accumulateOne acc f) ∧ ∀ p ∈ accumulateOne acc f, GoodFrag p = true := by
  rcases List.eq_nil_or_concat acc with rfl | ⟨L, a, rfl⟩
  · constructor
    · simp [accumulateOne, NoMergeAdj]
    · intro p hp
      simp [accumulateOne] at hp
      subst hp
      exact hf
  · simp only [List.concat_eq_append] at hchain hgood ⊢
    have hga : GoodFrag a = true := hgood a (by simp)
    simp only [accumulateOne, List.getLast?_concat, List.dropLast_concat]
    by_cases hst : isSameType a f = true
    · rw [if_pos hst]
      constructor
      · have hcl : classify (mergeInto a f) = classify a := mergeInto_classify hst
        unfold NoMergeAdj at hchain ⊢
        rw [List.chain'_append] at hchain ⊢
        obtain ⟨h1, _, h3⟩ := hchain
        refine ⟨h1, List.chain'_singleton _, ?_⟩
        intro x hx y hy
        simp only [List.head?_cons, Option.mem_def, Option.some.injEq] at hy
        subst hy
        have hxa := h3 x hx a (by simp)
        unfold sameMergeableKind at hxa ⊢
        rw [hcl]
        exact hxa
      · intro p hp
        rw [List.mem_append] at hp
        rcases hp with hp | hp
        · exact hgood p (List.mem_append.2 (Or.inl hp))
        · simp only [List.mem_singleton] at hp
          subst hp
          exact goodFrag_mergeInto hga
    · rw [if_neg hst]
      constructor
      · unfold NoMergeAdj at hchain ⊢
        rw [List.chain'_append]
        refine ⟨hchain, List.chain'_singleton _, ?_⟩
        intro x hx y hy
        simp only [List.head?_cons, Option.mem_def, Option.some.injEq] at hy
        subst hy
        rw [List.getLast?_concat] at hx
        simp only [Option.mem_def, Option.some.injEq] at hx
        subst hx
        cases hsk : sameMergeableKind a f
        · rfl
        · exact absurd (isSameType_of_same hga hf hsk) hst
      · intro p hp
        rw [List.mem_append] at hp
        rcases hp with hp | hp
        · exact hgood p hp
        · simp only [List.mem_singleton] at hp
          subst hp
          exact hf

theorem accumulate_invariant (fs : List Fragment) (h : ∀ f ∈ fs, GoodFrag f = true) :
    ∀ acc, NoMergeAdj acc → (∀ p ∈ acc, GoodFrag p = true) →
      NoMergeAdj (accumulate acc fs) ∧ ∀ p ∈ accumulate acc fs, GoodFrag p = true := by
  induction fs with
  | nil => exact fun acc h1 h2 => ⟨h1, h2⟩
  | cons f fs ih =>
    intro acc h1 h2
    have hf : GoodFrag f = true := h f (by simp)
    have hstep := accumulateOne_invariant h1 h2 hf
    exact ih (fun g hg => h g (by simp [hg])) (accumulateOne acc f) hstep.1 hstep.2

theorem applyTurn_replace (l : List ChatMessage) (a : ChatMessage) (mid : String)
    (ps : List Fragment) (now : Nat) (h : a.id = mid) :
    applyTurn (l ++ [a]) mid ps now = l ++ [⟨mid, "model", ps, a.timestamp⟩] := by
  unfold applyTurn
  rw [List.getLast?_concat]
  simp [h, List.dropLast_concat]

theorem applyTurn_append (prev : List ChatMessage) (mid : String)
    (ps : List Fragment) (now : Nat) (h : ∀ x ∈ prev.getLast?, x.id ≠ mid) :
    applyTurn prev mid ps now = prev ++ [⟨mid, "model", ps, now⟩] := by
  unfold applyTurn
  cases hl : prev.getLast? with
  | none => rfl
  | some a => simp [h a hl]

theorem processChunk_fold (mid : String) (now : Nat) (chunks : List Chunk)
    (prev : List ChatMessage) (h : ∀ m ∈ prev, m.id ≠ mid) :
    ∀ acc rest, (rest = [] ∨ ∃ msg, rest = [msg] ∧ msg.id = mid ∧ msg.role = "model") →
      ∃ rest2, (chunks.foldl (processChunk mid now) (acc, prev ++ rest)).2 = prev ++ rest2
        ∧ (rest2 = [] ∨ ∃ msg, rest2 = [msg] ∧ msg.id = mid ∧ msg.role = "model") := by
  induction chunks with
  | nil => exact fun acc rest hr => ⟨rest, rfl, hr⟩
  | cons c cs ih =>
    intro acc rest hr
    rw [List.foldl_cons]
    cases hc : incomingPartsOf c with
    | none =>
      have hid : processChunk mid now (acc, prev ++ rest) c = (acc, prev ++ rest) := by
        unfold processChunk
        rw [hc]
      rw [hid]
      exact ih acc rest hr
    | some ps =>
      have hstep : processChunk mid now (acc, prev ++ rest) c
          = (accumulate acc ps, applyTurn (prev ++ rest) mid (accumulate acc ps) now) := by
        unfold processChunk
        rw [hc]
      rw [hstep]
      rcases hr with rfl | ⟨msg, rfl, hmsg, _⟩
      · have happ : applyTurn (prev ++ []) mid (accumulate acc ps) now
            = prev ++ [⟨mid, "model", accumulate acc ps, now⟩] := by
          rw [List.append_nil]
          exact applyTurn_append prev mid _ now
            (fun x hx => h x (List.mem_of_getLast?_eq_some hx))
        rw [happ]
        exact ih (accumulate acc ps) [⟨mid, "model", accumulate acc ps, now⟩]
          (Or.inr ⟨_, rfl, rfl, rfl⟩)
      · have happ := applyTurn_replace prev msg mid (accumulate acc ps) now hmsg
        rw [happ]
        exact ih (accumulate acc ps) [⟨mid, "model", accumulate acc ps, msg.timestamp⟩]
          (Or.inr ⟨_, rfl, rfl, rfl⟩)

theorem isThought_iff (f : Fragment) :
    isThought f = true ↔
      (f.thought = some (ThoughtVal.bool true) ∨ ∃ s, f.thought = some (ThoughtVal.str s)) := by
  rw [isThought]
  cases hth : f.thought with
  | none => simp [thoughtFlag]
  | some v =>
    cases v with
    | bool b => cases b <;> simp [thoughtFlag]
    | str s => simp [thoughtFlag]

/-! ## Claim theorems -/

/-- Claim C1, counterexample: on the spec's end-to-end input the accumulator yields four
blocks, but the first Thought block's content is `**Plan**: crop`, not
`**Plan**: crop the image`: the merge step concatenates only `text` fields, so the
second string-valued `thought` delta is dropped. -/
theorem c1_counterexample :
    accumulate [] c1Input
      = [{ thought := some (.str "**Plan**: crop") },
         { executableCode := some ⟨"python", "crop(img)"⟩ },
         { codeExecutionResult := some ⟨"OK", "done"⟩ },
         { text := some "Here is the result." }]
    ∧ thoughtContent { thought := some (ThoughtVal.str "**Plan**: crop") } = "**Plan**: crop"
    ∧ ("**Plan**: crop" : String) ≠ "**Plan**: crop the image" := by
  refine ⟨by decide, by decide, by decide⟩

/-- Claim C1 (amended): the end-to-end input produces exactly 4 blocks in order — a
Thought block whose content is `**Plan**: crop` (the adjacent thought fragment is merged
but its string-valued thought delta is not concatenated), ExecutableCode(python,
crop(img)), CodeExecutionResult(OK, done), Text(Here is the result.). -/
theorem c1_end_to_end :
    accumulate [] c1Input
      = [{ thought := some (.str "**Plan**: crop") },
         { executableCode := some ⟨"python", "crop(img)"⟩ },
         { codeExecutionResult := some ⟨"OK", "done"⟩ },
         { text := some "Here is the result." }]
    ∧ (accumulate [] c1Input).map classify
        = [Kind.Thought, Kind.ExecutableCode, Kind.CodeExecutionResult, Kind.Text]
    ∧ thoughtContent ((accumulate [] c1Input).headD {}) = "**Plan**: crop"
    ∧ (accumulate [] c1Input).length = 4 := by
  refine ⟨by decide, by decide, by decide, by decide⟩

/-- Claim C2, counterexample: two consecutive fragments whose `text` is the empty string
are not merged — the accumulator leaves two adjacent blocks that the spec's classifier
both counts as Text, violating the claimed merge-adjacency invariant. -/
theorem c2_counterexample :
    accumulate [] [{ text := some "" }, { text := some "" }]
      = [{ text := some "" }, { text := some "" }]
    ∧ specClassify { text := some "" } = Kind.Text := by
  refine ⟨by decide, by decide⟩

/-- Claim C2 (amended): for every fragment sequence whose `text` fields and string-valued
`thought` fields are non-empty when present, no two consecutive blocks produced by the
accumulator share a mergeable kind (Text/Text or Thought/Thought) under the code's
classification; empty-string fields escape the merge because JavaScript treats them as
falsy. -/
theorem c2_merge_adjacency (fs : List Fragment) (h : ∀ f ∈ fs, GoodFrag f = true) :
    NoMergeAdj (accumulate [] fs) :=
  (accumulate_invariant fs h [] (by simp [NoMergeAdj]) (by simp)).1

/-- Witness for C2's amended theorem at a concrete truthy fragment sequence. -/
theorem c2_witness :
    (∀ f ∈ ([{ text := some "a" },
             { thought := some (ThoughtVal.bool true), text := some "b" },
             { text := some "c" }] : List Fragment), GoodFrag f = true)
    ∧ NoMergeAdj (accumulate []
        [{ text := some "a" },
         { thought := some (ThoughtVal.bool true), text := some "b" },
         { text := some "c" }]) :=
  ⟨by decide, c2_merge_adjacency _ (by decide)⟩

/-- Claim C3: feeding {text:"Hel"}, {text:"lo "}, {text:"world"} sequentially yields
exactly one Text block with content "Hello world" — each merge concatenates the incoming
delta onto the last block's content. -/
theorem c3_concat :
    accumulate [] [{ text := some "Hel" }, { text := some "lo " }, { text := some "world" }]
      = [{ text := some "Hello world" }]
    ∧ classify { text := some "Hello world" } = Kind.Text := by
  refine ⟨by decide, by decide⟩

/-- Claim C4, counterexample: a fragment whose only populated field is `text` equal to
the empty string is classified Unknown (renderPart's `if (part.text)` is falsy on the
empty string), not Text — so classification is not total on all singly-populated
fragments. -/
theorem c4_counterexample :
    populatedCount { text := some "" } = 1
    ∧ classify { text := some "" } = Kind.Unknown := by
  refine ⟨by decide, by decide⟩

/-- Claim C4 (amended): for every fragment with exactly one of the five recognized
fields populated, where a populated `text` field is non-empty and a populated `thought`
field is not the boolean false, classify returns the kind of the populated field and
never Unknown. -/
theorem c4_classification (f : Fragment) (h1 : populatedCount f = 1)
    (h2 : f.text ≠ some "") (h3 : f.thought ≠ some (ThoughtVal.bool false)) :
    classify f = populatedKind f ∧ classify f ≠ Kind.Unknown := by
  obtain ⟨t, th, e, c, i⟩ := f
  rcases th with _ | (b | s)
  · cases t <;> cases e <;> cases c <;> cases i <;>
      simp_all [populatedCount, populatedKind, classify, isThought, thoughtFlag,
        textTruthy, truthyText, isEmpty_false_iff]
  · cases b
    · exact absurd rfl h3
    · cases t <;> cases e <;> cases c <;> cases i <;>
        simp_all [populatedCount, populatedKind, classify, isThought, thoughtFlag,
          textTruthy, truthyText]
  · cases t <;> cases e <;> cases c <;> cases i <;>
      simp_all [populatedCount, populatedKind, classify, isThought, thoughtFlag,
        textTruthy, truthyText]

/-- Witness for C4's amended theorem at a concrete single-field fragment. -/
theorem c4_witness :
    populatedCount { executableCode := some ⟨"python", "x=1"⟩ } = 1
    ∧ classify { executableCode := some ⟨"python", "x=1"⟩ }
        = populatedKind { executableCode := some ⟨"python", "x=1"⟩ }
    ∧ classify { executableCode := some ⟨"python", "x=1"⟩ } ≠ Kind.Unknown :=
  ⟨by decide,
   (c4_classification _ (by decide) (by decide) (by decide)).1,
   (c4_classification { executableCode := some ⟨"python", "x=1"⟩ }
     (by decide) (by decide) (by decide)).2⟩

/-- Claim C5, counterexample: a fragment whose `thought` is the empty string is
classified Thought by the code (`typeof part.thought === 'string'` accepts ""), although
the claim's condition — thought present and truthy, or a non-empty string — is false. -/
theorem c5_counterexample :
    classify { thought := some (ThoughtVal.str "") } = Kind.Thought
    ∧ thoughtTruthy { thought := some (ThoughtVal.str "") } = false := by
  refine ⟨by decide, by decide⟩

/-- Claim C5 (amended): classify returns Thought exactly when `thought` is the boolean
true or any string, the empty string included; the displayed Thought content is the
trimmed thought value when it is a string, else the fragment's trimmed text (empty when
absent). -/
theorem c5_thought_rule (f : Fragment) :
    (classify f = Kind.Thought ↔
      (f.thought = some (ThoughtVal.bool true) ∨ ∃ s, f.thought = some (ThoughtVal.str s)))
    ∧ (∀ s, f.thought = some (ThoughtVal.str s) → thoughtContent f = jsTrim s)
    ∧ ((∀ s, f.thought ≠ some (ThoughtVal.str s)) → thoughtContent f = jsTrim (f.text.getD "")) := by
  refine ⟨(classify_thought_iff f).trans (isThought_iff f), ?_, ?_⟩
  · intro s h
    unfold thoughtContent
    rw [h]
  · intro h
    unfold thoughtContent
    cases hth : f.thought with
    | none => rfl
    | some v =>
      cases v with
      | bool b => rfl
      | str s => exact absurd hth (h s)

/-- Witness for C5's amended theorem at a concrete string-valued thought fragment. -/
theorem c5_witness :
    thoughtContent { thought := some (ThoughtVal.str " A ") } = jsTrim " A " :=
  (c5_thought_rule { thought := some (ThoughtVal.str " A ") }).2.1 " A " rfl

/-- Claim C6: when the conversation's last message has the model id, the store update
replaces it with a message carrying the new parts and the original timestamp, leaving
the length unchanged; otherwise it appends a fresh message with the given timestamp, and
calling the update twice with the same id appends exactly one message in total. -/
theorem c6_applyTurn (l : List ChatMessage) (m : ChatMessage) (mid : String)
    (ps ps' : List Fragment) (now now' : Nat) :
    (m.id = mid →
      applyTurn (l ++ [m]) mid ps now = l ++ [⟨mid, "model", ps, m.timestamp⟩]
      ∧ (applyTurn (l ++ [m]) mid ps now).length = (l ++ [m]).length)
    ∧ (∀ prev : List ChatMessage, (∀ x ∈ prev.getLast?, x.id ≠ mid) →
        applyTurn prev mid ps now = prev ++ [⟨mid, "model", ps, now⟩]
        ∧ (applyTurn (applyTurn prev mid ps now) mid ps' now').length = prev.length + 1) := by
  constructor
  · intro h
    rw [applyTurn_replace l m mid ps now h]
    simp
  · intro prev h
    have h1 := applyTurn_append prev mid ps now h
    refine ⟨h1, ?_⟩
    rw [h1, applyTurn_replace prev ⟨mid, "model", ps, now⟩ mid ps' now' rfl]
    simp

/-- Witness for C6 at a concrete one-message conversation and at the empty one. -/
theorem c6_witness :
    applyTurn ([] ++ [⟨"m1", "model", [], 5⟩]) "m1" [errorNotice] 9
      = [] ++ [⟨"m1", "model", [errorNotice], 5⟩]
    ∧ applyTurn [] "m1" [errorNotice] 9 = [] ++ [⟨"m1", "model", [errorNotice], 9⟩] :=
  ⟨((c6_applyTurn [] ⟨"m1", "model", [], 5⟩ "m1" [errorNotice] [] 9 0).1 rfl).1,
   ((c6_applyTurn [] ⟨"m1", "model", [], 5⟩ "m1" [errorNotice] [] 9 0).2 [] (by simp)).1⟩

/-- Claim C7: when the stream raises, the turn ends with the previous conversation
intact as a prefix, at most the one in-flight model message after it, and exactly one
appended synthetic model message holding a single Text block with the apology notice. -/
theorem c7_transport_error (prev : List ChatMessage) (mid : String) (s : TurnStream)
    (now : Nat) (herr : s.errors = true) (h : ∀ m ∈ prev, m.id ≠ mid) :
    ∃ rest, runTurn prev mid s now = prev ++ rest ++ [errorMessage now]
      ∧ (rest = [] ∨ ∃ msg, rest = [msg] ∧ msg.id = mid ∧ msg.role = "model")
      ∧ (errorMessage now).role = "model"
      ∧ (errorMessage now).parts.map classify = [Kind.Text] := by
  obtain ⟨rest2, heq, hshape⟩ := processChunk_fold mid now s.chunks prev h [] [] (Or.inl rfl)
  rw [List.append_nil] at heq
  refine ⟨rest2, ?_, hshape, rfl, rfl⟩
  have hrun : runTurn prev mid s now
      = (s.chunks.foldl (processChunk mid now) ([], prev)).2 ++ [errorMessage now] := by
    unfold runTurn
    simp only [if_pos herr]
  rw [hrun, heq, List.append_assoc]

/-- Witness for C7 at an errored stream with no delivered chunks. -/
theorem c7_witness :
    (TurnStream.mk [] true).errors = true
    ∧ ∃ rest, runTurn [] "m2" ⟨[], true⟩ 3 = [] ++ rest ++ [errorMessage 3]
        ∧ (rest = [] ∨ ∃ msg, rest = [msg] ∧ msg.id = "m2" ∧ msg.role = "model")
        ∧ (errorMessage 3).role = "model"
        ∧ (errorMessage 3).parts.map classify = [Kind.Text] :=
  ⟨rfl, c7_transport_error [] "m2" ⟨[], true⟩ 3 rfl (by simp)⟩

/-- Claim C9: when the transport errors after a part-bearing chunk, the partially
accumulated model message stays in the conversation and the error notice is appended as
a separate model message whose freshly generated id carries the `error-` prefix and so
differs from the model message's `model-` id — one failed turn leaves two model
messages. -/
theorem c9_partial_plus_error (prev : List ChatMessage) (t0 now : Nat) (fs : List Fragment)
    (h : ∀ m ∈ prev, m.id ≠ "model-" ++ toString t0) :
    runTurn prev ("model-" ++ toString t0) { chunks := [mkChunk fs], errors := true } now
      = prev ++ [⟨"model-" ++ toString t0, "model", accumulate [] fs, now⟩, errorMessage now]
    ∧ (errorMessage now).id = "error-" ++ toString now
    ∧ ("model-" ++ toString t0) ≠ (errorMessage now).id := by
  refine ⟨?_, rfl, model_ne_error _ _⟩
  have hstep : processChunk ("model-" ++ toString t0) now ([], prev) (mkChunk fs)
      = (accumulate [] fs,
         applyTurn prev ("model-" ++ toString t0) (accumulate [] fs) now) := by
    unfold processChunk
    rw [show incomingPartsOf (mkChunk fs) = some fs from rfl]
  have happ := applyTurn_append prev ("model-" ++ toString t0) (accumulate [] fs) now
    (fun x hx => h x (List.mem_of_getLast?_eq_some hx))
  have hrun : runTurn prev ("model-" ++ toString t0)
      { chunks := [mkChunk fs], errors := true } now
      = (applyTurn prev ("model-" ++ toString t0) (accumulate [] fs) now)
          ++ [errorMessage now] := by
    unfold runTurn
    simp only [List.foldl_cons, List.foldl_nil, hstep, if_pos]
  rw [hrun, happ, List.append_assoc]
  rfl

/-- Witness for C9 at a concrete errored one-chunk stream. -/
theorem c9_witness :
    runTurn [] ("model-" ++ toString 1) (TurnStream.mk [mkChunk [{ text := some "par" }]] true) 2
      = [] ++ [⟨"model-" ++ toString 1, "model", accumulate [] [{ text := some "par" }], 2⟩,
               errorMessage 2]
    ∧ ("model-" ++ toString 1) ≠ (errorMessage 2).id :=
  ⟨(c9_partial_plus_error [] 1 2 [{ text := some "par" }] (by simp)).1,
   (c9_partial_plus_error [] 1 2 [{ text := some "par" }] (by simp)).2.2⟩

/-- Claim C10: a chunk whose candidates carry no parts (the optional chain yields
nothing) leaves both the accumulated part list and the conversation unchanged. -/
theorem c10_empty_chunk (mid : String) (now : Nat) (st : List Fragment × List ChatMessage)
    (chunk : Chunk) (h : incomingPartsOf chunk = none) :
    processChunk mid now st chunk = st := by
  unfold processChunk
  rw [h]

/-- Witness for C10 at a chunk with no candidates. -/
theorem c10_witness :
    incomingPartsOf { candidates := none } = none
    ∧ processChunk "m0" 0 ([], []) { candidates := none } = ([], []) :=
  ⟨rfl, c10_empty_chunk "m0" 0 ([], []) { candidates := none } rfl⟩

/-- Claim C8: an image string rejected by the data-URL regex is omitted from the
outgoing parts while the text part is still sent; a matching image whose mime type is
application/octet-stream is sent with the mime type normalized to image/jpeg. -/
theorem c8_image_boundary (msg img : String) :
    (dataUrlMatch img = none → buildParts msg (some img) = [{ text := some msg }])
    ∧ (∀ d : String, dataUrlMatch img = some ("application/octet-stream", d) →
        buildParts msg (some img)
          = [{ text := some msg }, { inlineData := some ⟨"image/jpeg", d⟩ }]) := by
  constructor
  · intro h
    simp only [buildParts]
    rw [h]
  · intro d h
    simp only [buildParts]
    rw [h]
    simp

/-- Witness for C8 at a malformed image string and at an octet-stream data URL. -/
theorem c8_witness :
    dataUrlMatch "nope" = none
    ∧ buildParts "hi" (some "nope") = [{ text := some "hi" }]
    ∧ dataUrlMatch "data:application/octet-stream;base64,AA"
        = some ("application/octet-stream", "AA")
    ∧ buildParts "hi" (some "data:application/octet-stream;base64,AA")
        = [{ text := some "hi" }, { inlineData := some ⟨"image/jpeg", "AA"⟩ }] :=
  ⟨by decide, (c8_image_boundary "hi" "nope").1 (by decide), by decide,
   (c8_image_boundary "hi" "data:application/octet-stream;base64,AA").2 "AA" (by decide)⟩

end AgenticVision
